import Mathlib

/-!
Verification development for `tracing01-xdp-simple/trace_load_and_stats.c`.

The C program is embedded shallowly: kernel primitives (`bpf_map_get_next_key`,
`bpf_map_lookup_elem`, `bpf_obj_get_info_by_fd`, `libbpf_num_possible_cpus`,
object open/load/attach) are modelled as oracles supplied through environment
structures, machine integers as `Nat`/`Int` with explicit `% 2 ^ 64` where the
C performs `__u64` arithmetic, and the unbounded loops of `stats_print` and
`stats_poll` as fuel-indexed executors whose `none` result means the loop has
not terminated within the given fuel.
-/

namespace TraceStats

/-- The modulus of `__u64` arithmetic. -/
def U64 : Nat := 2 ^ 64

/-- Modelled from the spec: exit code for success, from `common_params.h`
(not among the sources); the spec requires an OK category. -/
def EXIT_OK : Nat := 0

/-- Modelled from the spec: exit code for generic failure, from
`common_params.h` (not among the sources). -/
def EXIT_FAIL : Nat := 1

/-- Modelled from the spec: the distinct kernel/table-subsystem failure exit
code, from `common_params.h` (not among the sources). -/
def EXIT_FAIL_BPF : Nat := 40

/-- The fields of `struct bpf_map_info` that the program reads: the four
checked fields plus the identifier and symbolic name printed in verbose
mode. -/
structure bpf_map_info where
  type : Nat
  id : Nat
  key_size : Nat
  value_size : Nat
  max_entries : Nat
  name : String
deriving Repr, DecidableEq

/-- The four fields compared by `__check_map_fd_info`. -/
inductive MapField where
  | keySize
  | valueSize
  | maxEntries
  | mapType
deriving Repr, DecidableEq

/-- Projection of a checked field out of a `bpf_map_info`. -/
def fieldVal : MapField → bpf_map_info → Nat
  | MapField.keySize, i => i.key_size
  | MapField.valueSize, i => i.value_size
  | MapField.maxEntries, i => i.max_entries
  | MapField.mapType, i => i.type

/-- The fixed order in which `__check_map_fd_info` compares the fields. -/
def checkOrder : List MapField :=
  [MapField.keySize, MapField.valueSize, MapField.maxEntries, MapField.mapType]

/-- A field mismatches when its expectation is non-zero and differs from the
live value (the C condition `exp->x && exp->x != info->x`). -/
def mismatchAt (exp info : bpf_map_info) (f : MapField) : Bool :=
  (fieldVal f exp != 0) && (fieldVal f exp != fieldVal f info)

/-- The distinguishable error outcomes of `__check_map_fd_info`: a negative
descriptor (returns `EXIT_FAIL`), a failed `bpf_obj_get_info_by_fd` syscall
(returns `EXIT_FAIL_BPF`), or a field mismatch (returns `EXIT_FAIL` after an
error message naming the field, the observed and the expected value). -/
inductive CheckErr where
  | badFd
  | infoFail
  | mismatch (f : MapField) (expected observed : Nat)
deriving Repr, DecidableEq

/-- The `int` exit value the C function returns for each error outcome. -/
def errExitCode : CheckErr → Nat
  | CheckErr.badFd => EXIT_FAIL
  | CheckErr.infoFail => EXIT_FAIL_BPF
  | CheckErr.mismatch _ _ _ => EXIT_FAIL

/-- `__check_map_fd_info` from the source. `live` is the oracle for the
`bpf_obj_get_info_by_fd` syscall: `none` when the syscall fails, otherwise the
`bpf_map_info` the kernel reports for `map_fd`. On success the C function has
filled `*info`; here the live info is returned in `Except.ok`. -/
def __check_map_fd_info (map_fd : Int) (live : Option bpf_map_info)
    (exp : bpf_map_info) : Except CheckErr bpf_map_info :=
  if map_fd < 0 then Except.error CheckErr.badFd
  else
    match live with
    | none => Except.error CheckErr.infoFail
    | some info =>
      if exp.key_size ≠ 0 ∧ exp.key_size ≠ info.key_size then
        Except.error (CheckErr.mismatch MapField.keySize exp.key_size info.key_size)
      else if exp.value_size ≠ 0 ∧ exp.value_size ≠ info.value_size then
        Except.error (CheckErr.mismatch MapField.valueSize exp.value_size info.value_size)
      else if exp.max_entries ≠ 0 ∧ exp.max_entries ≠ info.max_entries then
        Except.error (CheckErr.mismatch MapField.maxEntries exp.max_entries info.max_entries)
      else if exp.type ≠ 0 ∧ exp.type ≠ info.type then
        Except.error (CheckErr.mismatch MapField.mapType exp.type info.type)
      else Except.ok info

/-- The summation loop of `stats_print`: `total` is a `__u64` accumulator, so
each `total += values[i]` wraps modulo `2 ^ 64`; slot `i` of the per-CPU value
array is `v i` and the loop runs for `i = 0 .. nr_cpus - 1`. -/
def u64sum (nr_cpus : Nat) (v : Nat → Nat) : Nat :=
  (List.range nr_cpus).foldl (fun t i => (t + v i) % U64) 0

/-- The kernel-side view of the stats map during one scan, as `stats_print`
observes it through the bpf syscalls:
`keys` is the enumeration order `bpf_map_get_next_key` yields;
`vals k` gives the per-CPU slots of key `k` that `bpf_map_lookup_elem` reads;
`fails j k` is the oracle deciding whether the `bpf_map_lookup_elem` call made
at loop iteration `j` on key `k` fails;
`ifname` is `if_indextoname` rendered as a total function on indices. -/
structure MapView where
  keys : List Int
  vals : Int → Nat → Nat
  fails : Nat → Int → Bool
  ifname : Int → String

/-- The state of the `stats_print` loop: `key` is the C variable `key` (the
buffer `keyp` points to), `prevNull` records whether `prev_keyp` is still
`NULL`, `out` is the sequence of `name (total)` pairs printed so far, `diags`
the keys whose lookup failure was reported to stderr, and `lookups` the keys
passed to `bpf_map_lookup_elem`, in order. -/
structure ScanState where
  key : Int
  prevNull : Bool
  out : List (String × Nat)
  diags : List Int
  lookups : List Int
deriving Repr, DecidableEq

/-- The argument `stats_print` passes to `bpf_map_get_next_key`: `NULL` while
`prev_keyp` is `NULL`, otherwise the current content of `key` (after
`prev_keyp = keyp`, `prev_keyp` aliases the `key` buffer). -/
def cursor (s : ScanState) : Option Int :=
  if s.prevNull then none else some s.key

/-- The key following the first occurrence of `k` in the enumeration. -/
def nextAfter : List Int → Int → Option Int
  | [], _ => none
  | x :: xs, k => if x = k then xs.head? else nextAfter xs k

/-- `bpf_map_get_next_key` on a stable enumeration: from `NULL` it yields the
first key; from a key it yields the following one; `none` models the `ENOENT`
exhaustion (any error breaks the C loop). -/
def get_next_key (keys : List Int) : Option Int → Option Int
  | none => keys.head?
  | some k => nextAfter keys k

/-- One `name (total)` pair as produced for key `k`: interface name resolved
at print time and the wrapping sum of its `nr_cpus` per-CPU slots. -/
def pairOf (m : MapView) (nr_cpus : Nat) (k : Int) : String × Nat :=
  (m.ifname k, u64sum nr_cpus (m.vals k))

/-- The `while (true)` loop body of `stats_print`, fuel-indexed; `iter` counts
the loop iterations that reach `bpf_map_lookup_elem` (to index the failure
oracle). Per iteration: `bpf_map_get_next_key` either exhausts (break, loop
returns with the state), or writes the next key into `key`; a failed lookup
prints a diagnostic and `continue`s (`prev_keyp` unchanged); a successful
lookup sums the slots, prints the pair and sets `prev_keyp = keyp`. `none`
means the fuel ran out before the loop broke. -/
def statsScanLoop (m : MapView) (nr_cpus : Nat) : Nat → Nat → ScanState → Option ScanState
  | 0, _, _ => none
  | fuel + 1, iter, s =>
    match get_next_key m.keys (cursor s) with
    | none => some s
    | some k =>
      if m.fails iter k then
        statsScanLoop m nr_cpus fuel (iter + 1)
          { s with key := k, diags := s.diags ++ [k], lookups := s.lookups ++ [k] }
      else
        statsScanLoop m nr_cpus fuel (iter + 1)
          { key := k, prevNull := false, out := s.out ++ [pairOf m nr_cpus k],
            diags := s.diags, lookups := s.lookups ++ [k] }

/-- The scan state at function entry: `key` is an uninitialized `__s32` (its
value is never read while `prev_keyp` is `NULL`, so `0` is a harmless stand-in)
and `prev_keyp` is `NULL`. -/
def initScan : ScanState :=
  { key := 0, prevNull := true, out := [], diags := [], lookups := [] }

/-- `stats_print` from the source: `nr_cpus` is the value
`libbpf_num_possible_cpus()` returns at this call. -/
def stats_print (m : MapView) (nr_cpus fuel : Nat) : Option ScanState :=
  statsScanLoop m nr_cpus fuel 0 initScan

/-- The text one scan writes to stdout: `printf("%s (%llu) ", ...)` per
successfully read key, then `printf("\n")`. Note the format string is
`%llu`, plain decimal. -/
def scanLine (s : ScanState) : String :=
  String.join (s.out.map (fun p => p.1 ++ " (" ++ toString p.2 ++ ") ")) ++ "\n"

/-- The state reached after the loop has consumed the chunk `chunk` of
consecutive keys, each with a successful lookup. -/
def afterChunk (m : MapView) (nr_cpus : Nat) : List Int → ScanState → ScanState
  | [], s => s
  | r :: chunk, s =>
    afterChunk m nr_cpus chunk
      { key := r, prevNull := false, out := s.out ++ [pairOf m nr_cpus r],
        diags := s.diags, lookups := s.lookups ++ [r] }

/-- The cursor after successfully consuming a list of keys from a given
cursor. -/
def lastCursor : List Int → Option Int → Option Int
  | [], c => c
  | r :: rest, _ => lastCursor rest (some r)

/-- An observable event of the polling loop. -/
inductive PollEvent where
  | emitLine (line : String)
  | sleepFor (secs : Nat)
deriving Repr, DecidableEq

/-- The environment of `stats_poll`: `cpus n` is the value
`libbpf_num_possible_cpus()` returns during cycle `n` (queried fresh inside
`stats_print` on every cycle), `view n` the kernel map state cycle `n`
scans, and `interval` the sleep duration between scans. -/
structure PollEnv where
  cpus : Nat → Nat
  view : Nat → MapView
  interval : Nat

/-- One cycle of the `while (1)` body of `stats_poll`: run `stats_print`
(which queries the CPU count afresh), emitting its line, then `sleep`. -/
def pollCycle (p : PollEnv) (fuel n : Nat) : Option (List PollEvent) :=
  match stats_print (p.view n) (p.cpus n) fuel with
  | none => none
  | some s => some [PollEvent.emitLine (scanLine s), PollEvent.sleepFor p.interval]

/-- `stats_poll` from the source as a cycle-indexed event trace: the events of
the first `n` cycles of the `while (1)` loop (`none` if some scan in them
diverged). The loop guard is the constant `1`; there is no exit branch, so the
trace extends cycle by cycle forever. -/
def stats_poll (p : PollEnv) (fuel : Nat) : Nat → Option (List PollEvent)
  | 0 => some []
  | n + 1 =>
    match stats_poll p fuel n, pollCycle p fuel n with
    | some evs, some c => some (evs ++ c)
    | _, _ => none

/-- The outcome oracles for `load_bpf_and_trace_attach`: whether
`bpf_object__open_file` yields a usable object (`libbpf_get_error` zero),
whether `bpf_object__load` succeeds, whether `bpf_object__next_program` finds
a program, and whether `bpf_program__attach_tracepoint` succeeds. -/
structure LoadEnv where
  openOk : Bool
  loadOk : Bool
  hasProg : Bool
  attachOk : Bool
deriving Repr, DecidableEq

/-- What `load_bpf_and_trace_attach` did and returned: `ret` is the returned
`struct bpf_object *` (`none` for `NULL`), `opened`/`loaded`/`attached` record
which acquisitions succeeded, and `closed` whether `bpf_object__close` was
called on the opened object. -/
structure LoadResult where
  ret : Option Unit
  opened : Bool
  loaded : Bool
  attached : Bool
  closed : Bool
deriving Repr, DecidableEq

/-- `load_bpf_and_trace_attach` from the source: open, load, pick the first
program, attach to the `xdp:xdp_exception` tracepoint; on each failure after a
successful open, `goto err` closes the object and returns `NULL`. -/
def load_bpf_and_trace_attach (e : LoadEnv) : LoadResult :=
  if e.openOk = false then
    { ret := none, opened := false, loaded := false, attached := false, closed := false }
  else if e.loadOk = false then
    { ret := none, opened := true, loaded := false, attached := false, closed := true }
  else if e.hasProg = false then
    { ret := none, opened := true, loaded := true, attached := false, closed := true }
  else if e.attachOk = false then
    { ret := none, opened := true, loaded := true, attached := false, closed := true }
  else
    { ret := some (), opened := true, loaded := true, attached := true, closed := false }

/-- `find_map_fd` from the source: `bpf_object__find_map_by_name` followed by
`bpf_map__fd`; on lookup failure it returns the initial `map_fd = -1`. The
oracle `found` is the descriptor of the map when the name resolves. -/
def find_map_fd (found : Option Int) : Int :=
  match found with
  | none => -1
  | some fd => fd

/-- The expectation `main` builds: `key_size = sizeof(__s32) = 4`,
`value_size = sizeof(__u64) = 8`, all other fields left zero (wildcards). -/
def map_expect : bpf_map_info :=
  { type := 0, id := 0, key_size := 4, value_size := 8, max_entries := 0, name := "" }

/-- The oracles `main` consults before polling: the loader outcomes, the
result of resolving the map name `xdp_stats_map`, and the
`bpf_obj_get_info_by_fd` result for the resolved descriptor. -/
structure MainEnv where
  load : LoadEnv
  mapFd : Option Int
  liveInfo : Option bpf_map_info

/-- What `main` did up to (and excluding) the polling loop: `exitCode` is
`some c` when the process terminates with code `c` before polling,
`pollsWith` is `some (fd, info)` when `stats_poll` is entered with that
descriptor and validated info, `attached` whether an attachment was
established, and `mapLookedUp` whether `find_map_fd` was ever called. -/
structure MainResult where
  exitCode : Option Nat
  pollsWith : Option (Int × bpf_map_info)
  attached : Bool
  mapLookedUp : Bool
deriving DecidableEq

/-- `main` from the source, up to the call of `stats_poll` (which never
returns): load-and-attach (failure: `EXIT_FAIL_BPF`), resolve
`xdp_stats_map` (failure: `EXIT_FAIL_BPF`), validate the map against
`map_expect` (failure: the validator's own return code), then poll. -/
def main (e : MainEnv) : MainResult :=
  match (load_bpf_and_trace_attach e.load).ret with
  | none => { exitCode := some EXIT_FAIL_BPF, pollsWith := none,
              attached := (load_bpf_and_trace_attach e.load).attached,
              mapLookedUp := false }
  | some _ =>
    if find_map_fd e.mapFd < 0 then
      { exitCode := some EXIT_FAIL_BPF, pollsWith := none,
        attached := (load_bpf_and_trace_attach e.load).attached, mapLookedUp := true }
    else
      match __check_map_fd_info (find_map_fd e.mapFd) e.liveInfo map_expect with
      | Except.error ce =>
        { exitCode := some (errExitCode ce), pollsWith := none,
          attached := (load_bpf_and_trace_attach e.load).attached, mapLookedUp := true }
      | Except.ok info =>
        { exitCode := none, pollsWith := some (find_map_fd e.mapFd, info),
          attached := (load_bpf_and_trace_attach e.load).attached, mapLookedUp := true }

/-- Modelled from the spec: locale-appropriate thousands grouping of a digit
string (`en_US`), written on the reversed digit list (least significant digit
first): a separator after every three digits. -/
def groupChars : List Char → List Char
  | [] => []
  | [a] => [a]
  | [a, b] => [a, b]
  | [a, b, c] => [a, b, c]
  | a :: b :: c :: d :: rest => a :: b :: c :: ',' :: groupChars (d :: rest)

/-- Modelled from the spec: a total rendered with locale-appropriate thousands
grouping, as the spec says the output stream shows it. -/
def formatGrouped (n : Nat) : String :=
  String.mk (groupChars (toString n).toList.reverse).reverse

/-- A concrete two-key map whose first key fails its first lookup: the
counterexample input for the skip-to-next-key reading of a first-key read
failure. -/
def c2View : MapView :=
  { keys := [1, 2], vals := fun _ _ => 10,
    fails := fun j k => j == 0 && k == 1, ifname := fun _ => "i" }

/-- A concrete three-key map whose middle key fails its only lookup: witness
input for the single-read-failure theorem. -/
def c2wView : MapView :=
  { keys := [1, 2, 3], vals := fun _ _ => 7,
    fails := fun j k => j == 1 && k == 2, ifname := fun _ => "i" }

/-- A concrete one-key map whose entry sums to 30000 over two CPUs: the
failing input for the thousands-grouping clause of the output format. -/
def c6View : MapView :=
  { keys := [7], vals := fun _ _ => 15000,
    fails := fun _ _ => false, ifname := fun _ => "eth0" }

/-- A concrete failure-free one-key map for the polling-loop witness. -/
def c8View : MapView :=
  { keys := [1], vals := fun _ _ => 5,
    fails := fun _ _ => false, ifname := fun _ => "e" }

/-- A concrete polling environment with a constant CPU count. -/
def c8Env : PollEnv := { cpus := fun _ => 2, view := fun _ => c8View, interval := 2 }

/-- A concrete polling environment whose possible-CPU count changes between
cycles: cycle `n` observes `n + 1` CPUs. -/
def c9Env : PollEnv :=
  { cpus := fun n => n + 1, view := fun _ => c8View, interval := 2 }

/-- A concrete one-key map whose every lookup fails: the scan restarts from
`NULL` forever. -/
def c10View : MapView :=
  { keys := [5], vals := fun _ _ => 0,
    fails := fun _ _ => true, ifname := fun _ => "x" }

/-- In a duplicate-free enumeration, the key after `k` is the head of what
follows `k`. -/
theorem nextAfter_append :
    ∀ (pre rest : List Int) (k : Int), (pre ++ k :: rest).Nodup →
      nextAfter (pre ++ k :: rest) k = rest.head? := by
  intro pre
  induction pre with
  | nil => intro rest k _; simp [nextAfter]
  | cons x pre ih =>
    intro rest k hnd
    have hx : x ∉ pre ++ k :: rest := (List.nodup_cons.mp hnd).1
    have hxk : ¬ x = k := by
      intro he
      apply hx
      rw [he]
      exact List.mem_append_right pre (List.mem_cons_self k rest)
    simp only [List.cons_append, nextAfter, if_neg hxk]
    exact ih rest k (List.nodup_cons.mp hnd).2

/-- Whatever `nextAfter` yields is a key of the enumeration. -/
theorem nextAfter_mem :
    ∀ (keys : List Int) (k k2 : Int), nextAfter keys k = some k2 → k2 ∈ keys := by
  intro keys
  induction keys with
  | nil => intro k k2 h; simp [nextAfter] at h
  | cons x xs ih =>
    intro k k2 h
    simp only [nextAfter] at h
    by_cases hx : x = k
    · rw [if_pos hx] at h
      cases xs with
      | nil => simp at h
      | cons y ys =>
        simp only [List.head?] at h
        exact (Option.some.inj h) ▸ List.mem_cons_of_mem x (List.mem_cons_self y ys)
    · rw [if_neg hx] at h
      exact List.mem_cons_of_mem x (ih k k2 h)

/-- Whatever `bpf_map_get_next_key` yields is a key of the enumeration. -/
theorem get_next_key_mem (keys : List Int) (c : Option Int) (k : Int)
    (h : get_next_key keys c = some k) : k ∈ keys := by
  cases c with
  | none =>
    simp only [get_next_key] at h
    cases keys with
    | nil => simp at h
    | cons y ys =>
      simp only [List.head?] at h
      exact (Option.some.inj h) ▸ List.mem_cons_self y ys
  | some k0 => exact nextAfter_mem keys k0 k h

/-- `lastCursor` from a concrete key is the last key of the run. -/
theorem lastCursor_some :
    ∀ (l : List Int) (a : Int), lastCursor l (some a) = some (l.getLastD a) := by
  intro l
  induction l with
  | nil => intro a; rfl
  | cons b l ih =>
    intro a
    simp only [lastCursor, List.getLastD_cons]
    exact ih b

/-- After the last key of a duplicate-free enumeration, `nextAfter`
exhausts. -/
theorem nextAfter_getLastD :
    ∀ (l : List Int) (a : Int) (pre keys : List Int), keys = pre ++ a :: l →
      keys.Nodup → nextAfter keys (l.getLastD a) = none := by
  intro l
  induction l with
  | nil =>
    intro a pre keys hkeys hnd
    subst hkeys
    simpa using nextAfter_append pre [] a hnd
  | cons b l ih =>
    intro a pre keys hkeys hnd
    rw [List.getLastD_cons]
    apply ih b (pre ++ [a]) keys _ hnd
    simp [hkeys]

/-- The printed pairs accumulated over a chunk of successful reads. -/
theorem afterChunk_out (m : MapView) (ncpus : Nat) :
    ∀ (chunk : List Int) (s : ScanState),
      (afterChunk m ncpus chunk s).out = s.out ++ chunk.map (pairOf m ncpus) := by
  intro chunk
  induction chunk with
  | nil => intro s; simp [afterChunk]
  | cons r chunk ih => intro s; simp [afterChunk, ih]

/-- A chunk of successful reads adds no diagnostics. -/
theorem afterChunk_diags (m : MapView) (ncpus : Nat) :
    ∀ (chunk : List Int) (s : ScanState),
      (afterChunk m ncpus chunk s).diags = s.diags := by
  intro chunk
  induction chunk with
  | nil => intro s; rfl
  | cons r chunk ih => intro s; simp [afterChunk, ih]

/-- A chunk of successful reads looks up exactly its keys, in order. -/
theorem afterChunk_lookups (m : MapView) (ncpus : Nat) :
    ∀ (chunk : List Int) (s : ScanState),
      (afterChunk m ncpus chunk s).lookups = s.lookups ++ chunk := by
  intro chunk
  induction chunk with
  | nil => intro s; simp [afterChunk]
  | cons r chunk ih => intro s; simp [afterChunk, ih]

/-- The cursor after a chunk of successful reads. -/
theorem afterChunk_cursor (m : MapView) (ncpus : Nat) :
    ∀ (chunk : List Int) (s : ScanState),
      cursor (afterChunk m ncpus chunk s) = lastCursor chunk (cursor s) := by
  intro chunk
  induction chunk with
  | nil => intro s; rfl
  | cons r chunk ih =>
    intro s
    simp only [afterChunk, lastCursor, ih]
    rfl

/-- Exhaustion breaks the loop and returns the current state. -/
theorem statsScanLoop_break (m : MapView) (ncpus fuel iter : Nat) (s : ScanState)
    (h : get_next_key m.keys (cursor s) = none) :
    statsScanLoop m ncpus (fuel + 1) iter s = some s := by
  simp [statsScanLoop, h]

/-- A failed lookup records the key as a diagnostic and continues with
`prev_keyp` untouched. -/
theorem statsScanLoop_failStep (m : MapView) (ncpus fuel iter : Nat) (s : ScanState)
    (k : Int) (hk : get_next_key m.keys (cursor s) = some k)
    (hf : m.fails iter k = true) :
    statsScanLoop m ncpus (fuel + 1) iter s =
      statsScanLoop m ncpus fuel (iter + 1)
        { s with key := k, diags := s.diags ++ [k], lookups := s.lookups ++ [k] } := by
  simp [statsScanLoop, hk, hf]

/-- Mid-enumeration generalization of exhaustion: after the last key of the
run `a :: l`, `nextAfter` yields the head of what follows the run. -/
theorem nextAfter_getLastD_mid :
    ∀ (l : List Int) (a : Int) (pre post keys : List Int),
      keys = pre ++ a :: (l ++ post) → keys.Nodup →
      nextAfter keys (l.getLastD a) = post.head? := by
  intro l
  induction l with
  | nil =>
    intro a pre post keys hkeys hnd
    subst hkeys
    simpa using nextAfter_append pre post a (by simpa using hnd)
  | cons b l ih =>
    intro a pre post keys hkeys hnd
    rw [List.getLastD_cons]
    apply ih b (pre ++ [a]) post keys _ hnd
    simp [hkeys]

/-- A cursor holding a concrete key means `prev_keyp` is no longer `NULL`. -/
theorem prevNull_false_of_cursor_some (s : ScanState) (x : Int)
    (h : cursor s = some x) : s.prevNull = false := by
  unfold cursor at h
  cases hp : s.prevNull with
  | true => rw [hp] at h; simp at h
  | false => rfl

/-- A successful lookup prints the pair and advances `prev_keyp` onto the
`key` buffer. -/
theorem statsScanLoop_okStep (m : MapView) (ncpus fuel iter : Nat) (s : ScanState)
    (k : Int) (hk : get_next_key m.keys (cursor s) = some k)
    (hf : m.fails iter k = false) :
    statsScanLoop m ncpus (fuel + 1) iter s =
      statsScanLoop m ncpus fuel (iter + 1)
        { key := k, prevNull := false, out := s.out ++ [pairOf m ncpus k],
          diags := s.diags, lookups := s.lookups ++ [k] } := by
  simp [statsScanLoop, hk, hf]

/-- `statsScanLoop_break` for any positive fuel. -/
theorem statsScanLoop_break' (m : MapView) (ncpus fuel iter : Nat) (s : ScanState)
    (hfuel : 1 ≤ fuel) (h : get_next_key m.keys (cursor s) = none) :
    statsScanLoop m ncpus fuel iter s = some s := by
  obtain ⟨f, rfl⟩ : ∃ f, fuel = f + 1 := ⟨fuel - 1, by omega⟩
  exact statsScanLoop_break m ncpus f iter s h

/-- `statsScanLoop_failStep` for any positive fuel. -/
theorem statsScanLoop_failStep' (m : MapView) (ncpus fuel iter : Nat) (s : ScanState)
    (k : Int) (hfuel : 1 ≤ fuel) (hk : get_next_key m.keys (cursor s) = some k)
    (hf : m.fails iter k = true) :
    statsScanLoop m ncpus fuel iter s =
      statsScanLoop m ncpus (fuel - 1) (iter + 1)
        { s with key := k, diags := s.diags ++ [k], lookups := s.lookups ++ [k] } := by
  obtain ⟨f, rfl⟩ : ∃ f, fuel = f + 1 := ⟨fuel - 1, by omega⟩
  simpa using statsScanLoop_failStep m ncpus f iter s k hk hf

/-- `statsScanLoop_okStep` for any positive fuel. -/
theorem statsScanLoop_okStep' (m : MapView) (ncpus fuel iter : Nat) (s : ScanState)
    (k : Int) (hfuel : 1 ≤ fuel) (hk : get_next_key m.keys (cursor s) = some k)
    (hf : m.fails iter k = false) :
    statsScanLoop m ncpus fuel iter s =
      statsScanLoop m ncpus (fuel - 1) (iter + 1)
        { key := k, prevNull := false, out := s.out ++ [pairOf m ncpus k],
          diags := s.diags, lookups := s.lookups ++ [k] } := by
  obtain ⟨f, rfl⟩ : ∃ f, fuel = f + 1 := ⟨fuel - 1, by omega⟩
  simpa using statsScanLoop_okStep m ncpus f iter s k hk hf

/-- Running the loop through a chunk of consecutive keys whose lookups all
succeed advances the loop to the state after the chunk. -/
theorem statsScanLoop_chunk (m : MapView) (ncpus : Nat) :
    ∀ (chunk pre post : List Int) (iter fuel : Nat) (s : ScanState),
      m.keys = pre ++ chunk ++ post →
      m.keys.Nodup →
      (∀ j k, iter ≤ j → j < iter + chunk.length → m.fails j k = false) →
      get_next_key m.keys (cursor s) = (chunk ++ post).head? →
      chunk.length ≤ fuel →
      statsScanLoop m ncpus fuel iter s =
        statsScanLoop m ncpus (fuel - chunk.length) (iter + chunk.length)
          (afterChunk m ncpus chunk s) := by
  intro chunk
  induction chunk with
  | nil => intro pre post iter fuel s _ _ _ _ _; simp [afterChunk]
  | cons r chunk ih =>
    intro pre post iter fuel s hkeys hnd hwin hcur hfuel
    cases fuel with
    | zero => simp at hfuel
    | succ f =>
      have hcur' : get_next_key m.keys (cursor s) = some r := by
        simpa using hcur
      have hfr : m.fails iter r = false := by
        apply hwin iter r (Nat.le_refl iter)
        simp only [List.length_cons]
        omega
      have hstep : statsScanLoop m ncpus (f + 1) iter s =
          statsScanLoop m ncpus f (iter + 1)
            { key := r, prevNull := false, out := s.out ++ [pairOf m ncpus r],
              diags := s.diags, lookups := s.lookups ++ [r] } := by
        simp [statsScanLoop, hcur', hfr]
      rw [hstep]
      have hkeys2 : m.keys = (pre ++ [r]) ++ chunk ++ post := by
        simp only [hkeys]
        simp
      have hwin2 : ∀ j k, iter + 1 ≤ j → j < iter + 1 + chunk.length →
          m.fails j k = false := by
        intro j k h1 h2
        apply hwin j k (by omega)
        simp only [List.length_cons]
        omega
      have hcur2 : get_next_key m.keys
          (cursor { key := r, prevNull := false, out := s.out ++ [pairOf m ncpus r],
                    diags := s.diags, lookups := s.lookups ++ [r] }) =
          (chunk ++ post).head? := by
        show nextAfter m.keys r = (chunk ++ post).head?
        have hsplit : m.keys = pre ++ r :: (chunk ++ post) := by
          simp only [hkeys]
          simp
        rw [hsplit]
        exact nextAfter_append pre (chunk ++ post) r (hsplit ▸ hnd)
      have := ih (pre ++ [r]) post (iter + 1) f
        { key := r, prevNull := false, out := s.out ++ [pairOf m ncpus r],
          diags := s.diags, lookups := s.lookups ++ [r] }
        hkeys2 hnd hwin2 hcur2 (by simp only [List.length_cons] at hfuel; omega)
      rw [this]
      have e1 : f - chunk.length = f + 1 - (r :: chunk).length := by
        simp only [List.length_cons]; omega
      have e2 : iter + 1 + chunk.length = iter + (r :: chunk).length := by
        simp only [List.length_cons]; omega
      rw [e1, e2]
      rfl

/-- Running the loop from a cursor pointing at the suffix `rest` of the
enumeration, with no lookup failures from `iter` on, consumes `rest` and then
breaks on exhaustion. -/
theorem statsScanLoop_finish (m : MapView) (ncpus : Nat)
    (rest pre : List Int) (iter fuel : Nat) (s : ScanState)
    (hkeys : m.keys = pre ++ rest)
    (hnd : m.keys.Nodup)
    (hnofail : ∀ j k, iter ≤ j → m.fails j k = false)
    (hcur : get_next_key m.keys (cursor s) = rest.head?)
    (hfuel : rest.length + 1 ≤ fuel) :
    statsScanLoop m ncpus fuel iter s = some (afterChunk m ncpus rest s) := by
  have hchunk := statsScanLoop_chunk m ncpus rest pre [] iter fuel s
    (by simp [hkeys]) hnd (fun j k h1 _ => hnofail j k h1)
    (by simpa using hcur) (by omega)
  rw [hchunk]
  apply statsScanLoop_break' m ncpus _ _ _ (by omega)
  rw [afterChunk_cursor]
  cases rest with
  | nil => simpa using hcur
  | cons r rest' =>
    show get_next_key m.keys (lastCursor rest' (some r)) = none
    rw [lastCursor_some]
    show nextAfter m.keys (rest'.getLastD r) = none
    exact nextAfter_getLastD rest' r pre m.keys hkeys hnd

/-- Every pair a scan prints comes from a key of the enumeration, its name
resolved and its `nr_cpus` slots summed. -/
theorem statsScanLoop_out_mem (m : MapView) (ncpus : Nat) :
    ∀ (fuel iter : Nat) (s s' : ScanState),
      statsScanLoop m ncpus fuel iter s = some s' →
      ∀ p ∈ s'.out, p ∈ s.out ∨ ∃ k, k ∈ m.keys ∧ p = pairOf m ncpus k := by
  intro fuel
  induction fuel with
  | zero => intro iter s s' h; simp [statsScanLoop] at h
  | succ f ih =>
    intro iter s s' h p hp
    rw [statsScanLoop] at h
    split at h
    · have hs : s = s' := Option.some.inj h
      exact Or.inl (hs ▸ hp)
    · rename_i k hnk
      by_cases hf : m.fails iter k = true
      · rw [if_pos hf] at h
        rcases ih (iter + 1) _ s' h p hp with h1 | h2
        · exact Or.inl h1
        · exact Or.inr h2
      · rw [if_neg hf] at h
        rcases ih (iter + 1) _ s' h p hp with h1 | h2
        · rcases List.mem_append.mp h1 with h3 | h4
          · exact Or.inl h3
          · have hpk : p = pairOf m ncpus k := by simpa using h4
            exact Or.inr ⟨k, get_next_key_mem m.keys (cursor s) k hnk, hpk⟩
        · exact Or.inr h2

/-- The general foldl form of wrapping addition: folding wrapping additions
starting from `acc % U64` yields the plain sum reduced once. -/
theorem foldl_u64add (l : List Nat) :
    ∀ acc : Nat, l.foldl (fun t x => (t + x) % U64) (acc % U64) = (acc + l.sum) % U64 := by
  induction l with
  | nil => intro acc; simp
  | cons x l ih =>
    intro acc
    have h1 : (acc % U64 + x) % U64 = (acc + x) % U64 := by
      conv_rhs => rw [Nat.add_mod]
      rw [Nat.add_mod, Nat.mod_mod_of_dvd]
      exact dvd_refl U64
    simp only [List.foldl_cons, h1]
    have h2 := ih (acc + x)
    rw [← Nat.mod_mod_of_dvd (acc + x) (dvd_refl U64)] at h2
    rw [Nat.mod_mod_of_dvd _ (dvd_refl U64)] at h2
    calc l.foldl (fun t y => (t + y) % U64) ((acc + x) % U64)
        = (acc + x + l.sum) % U64 := h2
      _ = (acc + (x :: l).sum) % U64 := by simp [List.sum_cons]; ring_nf

/-- C4: for every counter entry with `nr_cpus` per-CPU slots, the computed
total is the arithmetic sum of all the slots in 64-bit wraparound (mod `2^64`)
arithmetic — no saturation; the zero-slot and `nr_cpus = 1` cases are
instances of the universal statement. -/
theorem u64sum_is_wrapping_sum (nr_cpus : Nat) (v : Nat → Nat) :
    u64sum nr_cpus v = ((List.range nr_cpus).map v).sum % U64 := by
  have h0 : (0 : Nat) = 0 % U64 := by simp [U64]
  calc u64sum nr_cpus v
      = ((List.range nr_cpus).map v).foldl (fun t x => (t + x) % U64) 0 := by
        rw [u64sum, List.foldl_map]
    _ = ((List.range nr_cpus).map v).foldl (fun t x => (t + x) % U64) (0 % U64) := by
        rw [← h0]
    _ = (0 + ((List.range nr_cpus).map v).sum) % U64 := foldl_u64add _ 0
    _ = ((List.range nr_cpus).map v).sum % U64 := by rw [Nat.zero_add]

/-- C5: a Table Expectation whose four checked fields are all zero accepts
every live Table Descriptor — each zero field is a wildcard. -/
theorem check_map_all_zero_accepts (fd : Int) (exp info : bpf_map_info)
    (hfd : 0 ≤ fd) (hk : exp.key_size = 0) (hv : exp.value_size = 0)
    (hm : exp.max_entries = 0) (ht : exp.type = 0) :
    __check_map_fd_info fd (some info) exp = Except.ok info := by
  have h0 : ¬ fd < 0 := not_lt.mpr hfd
  simp [__check_map_fd_info, h0, hk, hv, hm, ht]

/-- Witness for `check_map_all_zero_accepts` at descriptor `3`, an all-zero
expectation and a concrete live descriptor. -/
theorem check_map_all_zero_accepts_witness :
    __check_map_fd_info 3
        (some { type := 6, id := 9, key_size := 4, value_size := 8,
                max_entries := 256, name := "xdp_stats_map" })
        { type := 0, id := 0, key_size := 0, value_size := 0,
          max_entries := 0, name := "" } =
      Except.ok { type := 6, id := 9, key_size := 4, value_size := 8,
                  max_entries := 256, name := "xdp_stats_map" } :=
  check_map_all_zero_accepts 3 _ _ (by decide) rfl rfl rfl rfl

/-- C1: for every live descriptor, the validator compares the four fields in
the fixed order key size, value size, max entries, type; a non-zero
expectation field must equal the live value exactly, and the result is
determined by the FIRST mismatching field in that order — the reported error
names that field together with its expected and observed values, and later
mismatches are not reported. -/
theorem check_map_reports_first_mismatch (fd : Int) (info exp : bpf_map_info)
    (hfd : 0 ≤ fd) :
    __check_map_fd_info fd (some info) exp =
      match checkOrder.find? (mismatchAt exp info) with
      | some f => Except.error (CheckErr.mismatch f (fieldVal f exp) (fieldVal f info))
      | none => Except.ok info := by
  have h0 : ¬ fd < 0 := not_lt.mpr hfd
  simp only [__check_map_fd_info, if_neg h0, checkOrder]
  by_cases h1 : exp.key_size ≠ 0 ∧ exp.key_size ≠ info.key_size
  · have hp : mismatchAt exp info MapField.keySize = true := by
      simp only [mismatchAt, fieldVal, Bool.and_eq_true, bne_iff_ne]
      exact h1
    rw [if_pos h1, List.find?_cons_of_pos _ hp]
    simp [fieldVal]
  · have hp : ¬ mismatchAt exp info MapField.keySize = true := by
      simp only [mismatchAt, fieldVal, Bool.and_eq_true, bne_iff_ne]
      exact h1
    rw [if_neg h1, List.find?_cons_of_neg _ hp]
    by_cases h2 : exp.value_size ≠ 0 ∧ exp.value_size ≠ info.value_size
    · have hq : mismatchAt exp info MapField.valueSize = true := by
        simp only [mismatchAt, fieldVal, Bool.and_eq_true, bne_iff_ne]
        exact h2
      rw [if_pos h2, List.find?_cons_of_pos _ hq]
      simp [fieldVal]
    · have hq : ¬ mismatchAt exp info MapField.valueSize = true := by
        simp only [mismatchAt, fieldVal, Bool.and_eq_true, bne_iff_ne]
        exact h2
      rw [if_neg h2, List.find?_cons_of_neg _ hq]
      by_cases h3 : exp.max_entries ≠ 0 ∧ exp.max_entries ≠ info.max_entries
      · have hr : mismatchAt exp info MapField.maxEntries = true := by
          simp only [mismatchAt, fieldVal, Bool.and_eq_true, bne_iff_ne]
          exact h3
        rw [if_pos h3, List.find?_cons_of_pos _ hr]
        simp [fieldVal]
      · have hr : ¬ mismatchAt exp info MapField.maxEntries = true := by
          simp only [mismatchAt, fieldVal, Bool.and_eq_true, bne_iff_ne]
          exact h3
        rw [if_neg h3, List.find?_cons_of_neg _ hr]
        by_cases h4 : exp.type ≠ 0 ∧ exp.type ≠ info.type
        · have hs : mismatchAt exp info MapField.mapType = true := by
            simp only [mismatchAt, fieldVal, Bool.and_eq_true, bne_iff_ne]
            exact h4
          rw [if_pos h4, List.find?_cons_of_pos _ hs]
          simp [fieldVal]
        · have hs : ¬ mismatchAt exp info MapField.mapType = true := by
            simp only [mismatchAt, fieldVal, Bool.and_eq_true, bne_iff_ne]
            exact h4
          rw [if_neg h4, List.find?_cons_of_neg _ hs]
          simp

/-- Witness for `check_map_reports_first_mismatch` at a descriptor whose key
size and max entries both mismatch: the first field in check order (key size)
is the one reported. -/
theorem check_map_reports_first_mismatch_witness :
    __check_map_fd_info 3
        (some { type := 6, id := 9, key_size := 4, value_size := 8,
                max_entries := 256, name := "xdp_stats_map" })
        { type := 0, id := 0, key_size := 8, value_size := 8,
          max_entries := 16, name := "" } =
      Except.error (CheckErr.mismatch MapField.keySize 8 4) := by
  rw [check_map_reports_first_mismatch 3 _ _ (by decide)]
  rfl

/-- C3: the load-and-attach pipeline admits no partial success — a non-`NULL`
return means the object was opened, loaded into the kernel and attached (and
not closed), while on every failure return after a successful open the
acquired object has been closed before returning. -/
theorem load_attach_no_partial_success (e : LoadEnv) :
    ((load_bpf_and_trace_attach e).ret.isSome = true →
      (load_bpf_and_trace_attach e).opened = true ∧
      (load_bpf_and_trace_attach e).loaded = true ∧
      (load_bpf_and_trace_attach e).attached = true ∧
      (load_bpf_and_trace_attach e).closed = false) ∧
    ((load_bpf_and_trace_attach e).ret = none →
      (load_bpf_and_trace_attach e).opened = true →
      (load_bpf_and_trace_attach e).closed = true) := by
  obtain ⟨o, l, p, a⟩ := e
  cases o <;> cases l <;> cases p <;> cases a <;> decide

/-- Witness for `load_attach_no_partial_success`: a kernel load failure after
a successful open releases the object. -/
theorem load_attach_no_partial_success_witness :
    (load_bpf_and_trace_attach
        { openOk := true, loadOk := false, hasProg := true, attachOk := true }).closed = true :=
  (load_attach_no_partial_success
    { openOk := true, loadOk := false, hasProg := true, attachOk := true }).2 rfl rfl

/-- The loader returns `NULL` whenever any of its four steps fails. -/
theorem load_ret_none_of_fail (le : LoadEnv)
    (h : le.openOk = false ∨ le.loadOk = false ∨ le.hasProg = false ∨
      le.attachOk = false) :
    (load_bpf_and_trace_attach le).ret = none := by
  obtain ⟨o, l, p, a⟩ := le
  cases o <;> cases l <;> cases p <;> cases a <;> simp_all [load_bpf_and_trace_attach]

/-- C7: the three exit-code categories are pairwise distinct; `main` enters
the polling loop exactly when no pre-polling step failed; every fatal
pre-polling error terminates the process with `EXIT_FAIL` or `EXIT_FAIL_BPF`
(never `EXIT_OK`), before polling, covering each error class: when the
artifact open fails `main` exits with the kernel/table failure code
`EXIT_FAIL_BPF` with no attachment established and the stats map never
resolved; a kernel-load, program-selection or attach failure likewise exits
with `EXIT_FAIL_BPF` and never polls; a table-resolution failure (negative
descriptor) exits with `EXIT_FAIL_BPF` and never polls; and a schema-validator
failure exits with the validator's own code and never polls. -/
theorem main_prepoll_fatal_exits (e : MainEnv) :
    (EXIT_OK ≠ EXIT_FAIL ∧ EXIT_OK ≠ EXIT_FAIL_BPF ∧ EXIT_FAIL ≠ EXIT_FAIL_BPF) ∧
    ((main e).pollsWith.isSome = true ↔ (main e).exitCode = none) ∧
    (∀ c, (main e).exitCode = some c → c = EXIT_FAIL ∨ c = EXIT_FAIL_BPF) ∧
    (e.load.openOk = false →
      main e = { exitCode := some EXIT_FAIL_BPF, pollsWith := none,
                 attached := false, mapLookedUp := false }) ∧
    ((e.load.openOk = false ∨ e.load.loadOk = false ∨ e.load.hasProg = false ∨
        e.load.attachOk = false) →
      (main e).exitCode = some EXIT_FAIL_BPF ∧ (main e).pollsWith = none) ∧
    (find_map_fd e.mapFd < 0 →
      (main e).exitCode = some EXIT_FAIL_BPF ∧ (main e).pollsWith = none) ∧
    (∀ ce, (load_bpf_and_trace_attach e.load).ret.isSome = true →
      0 ≤ find_map_fd e.mapFd →
      __check_map_fd_info (find_map_fd e.mapFd) e.liveInfo map_expect =
        Except.error ce →
      (main e).exitCode = some (errExitCode ce) ∧ (main e).pollsWith = none) := by
  refine ⟨by decide, ?_, ?_, ?_, ?_, ?_, ?_⟩
  · unfold main
    split
    · simp
    · split
      · simp
      · split
        · simp
        · simp
  · intro c
    unfold main
    split
    · intro hc
      exact Or.inr (Option.some.inj hc).symm
    · split
      · intro hc
        exact Or.inr (Option.some.inj hc).symm
      · split
        · rename_i ce heq
          intro hc
          have hce : c = errExitCode ce := (Option.some.inj hc).symm
          cases ce
          · exact Or.inl hce
          · exact Or.inr hce
          · exact Or.inl hce
        · intro hc
          exact absurd hc (by simp)
  · intro ho
    have hl : load_bpf_and_trace_attach e.load =
        { ret := none, opened := false, loaded := false, attached := false,
          closed := false } := by
      simp [load_bpf_and_trace_attach, ho]
    unfold main
    rw [hl]
  · intro h
    have hret : (load_bpf_and_trace_attach e.load).ret = none :=
      load_ret_none_of_fail e.load h
    unfold main
    rw [hret]
    exact ⟨rfl, rfl⟩
  · intro h
    unfold main
    split
    · exact ⟨rfl, rfl⟩
    · rw [if_pos h]
      exact ⟨rfl, rfl⟩
  · intro ce h1 h2 h3
    obtain ⟨u, hu⟩ := Option.isSome_iff_exists.mp h1
    unfold main
    rw [hu, if_neg (not_lt.mpr h2), h3]
    exact ⟨rfl, rfl⟩

/-- Witness for `main_prepoll_fatal_exits`, exercising one concrete input per
error class: an artifact-open failure (full characterization), an attach
failure, a kernel-load failure, a missing `xdp_stats_map` (table resolution),
and a key-size schema mismatch (validator); each exits before polling with
its exit code. -/
theorem main_prepoll_fatal_exits_witness :
    (main { load := { openOk := false, loadOk := true, hasProg := true, attachOk := true },
            mapFd := some 3, liveInfo := none } =
        { exitCode := some EXIT_FAIL_BPF, pollsWith := none,
          attached := false, mapLookedUp := false }) ∧
    ((main { load := { openOk := true, loadOk := true, hasProg := true, attachOk := false },
             mapFd := some 3, liveInfo := none }).exitCode = some EXIT_FAIL_BPF ∧
      (main { load := { openOk := true, loadOk := true, hasProg := true, attachOk := false },
              mapFd := some 3, liveInfo := none }).pollsWith = none) ∧
    ((main { load := { openOk := true, loadOk := false, hasProg := true, attachOk := true },
             mapFd := some 3, liveInfo := none }).exitCode = some EXIT_FAIL_BPF ∧
      (main { load := { openOk := true, loadOk := false, hasProg := true, attachOk := true },
              mapFd := some 3, liveInfo := none }).pollsWith = none) ∧
    ((main { load := { openOk := true, loadOk := true, hasProg := true, attachOk := true },
             mapFd := none, liveInfo := none }).exitCode = some EXIT_FAIL_BPF ∧
      (main { load := { openOk := true, loadOk := true, hasProg := true, attachOk := true },
              mapFd := none, liveInfo := none }).pollsWith = none) ∧
    ((main { load := { openOk := true, loadOk := true, hasProg := true, attachOk := true },
             mapFd := some 3,
             liveInfo := some { type := 6, id := 9, key_size := 8, value_size := 8,
                                max_entries := 256, name := "xdp_stats_map" } }).exitCode =
        some (errExitCode (CheckErr.mismatch MapField.keySize 4 8)) ∧
      (main { load := { openOk := true, loadOk := true, hasProg := true, attachOk := true },
              mapFd := some 3,
              liveInfo := some { type := 6, id := 9, key_size := 8, value_size := 8,
                                 max_entries := 256, name := "xdp_stats_map" } }).pollsWith =
        none) :=
  ⟨(main_prepoll_fatal_exits
      { load := { openOk := false, loadOk := true, hasProg := true, attachOk := true },
        mapFd := some 3, liveInfo := none }).2.2.2.1 rfl,
   (main_prepoll_fatal_exits
      { load := { openOk := true, loadOk := true, hasProg := true, attachOk := false },
        mapFd := some 3, liveInfo := none }).2.2.2.2.1
     (Or.inr (Or.inr (Or.inr rfl))),
   (main_prepoll_fatal_exits
      { load := { openOk := true, loadOk := false, hasProg := true, attachOk := true },
        mapFd := some 3, liveInfo := none }).2.2.2.2.1 (Or.inr (Or.inl rfl)),
   (main_prepoll_fatal_exits
      { load := { openOk := true, loadOk := true, hasProg := true, attachOk := true },
        mapFd := none, liveInfo := none }).2.2.2.2.2.1 (by decide),
   (main_prepoll_fatal_exits
      { load := { openOk := true, loadOk := true, hasProg := true, attachOk := true },
        mapFd := some 3,
        liveInfo := some { type := 6, id := 9, key_size := 8, value_size := 8,
                           max_entries := 256, name := "xdp_stats_map" } }).2.2.2.2.2.2
     (CheckErr.mismatch MapField.keySize 4 8) rfl (by decide) rfl⟩

/-- C10: while `prev_keyp` is still `NULL` and lookups of the head key fail,
every iteration passes `NULL` to `bpf_map_get_next_key` again, so the loop
re-reads the FIRST key of the enumeration (rather than advancing to the
second); consequently, if every retry of the first key fails, the scan never
terminates (it returns within no fuel bound). -/
theorem first_key_fail_restarts_scan (m : MapView) (ncpus : Nat) (k0 : Int)
    (hhead : m.keys.head? = some k0)
    (hfail : ∀ j, m.fails j k0 = true) :
    (∀ (fuel iter : Nat) (s : ScanState), s.prevNull = true →
        statsScanLoop m ncpus (fuel + 1) iter s =
          statsScanLoop m ncpus fuel (iter + 1)
            { s with key := k0, diags := s.diags ++ [k0],
                     lookups := s.lookups ++ [k0] }) ∧
    (∀ fuel, stats_print m ncpus fuel = none) := by
  have hstep : ∀ (fuel iter : Nat) (s : ScanState), s.prevNull = true →
      statsScanLoop m ncpus (fuel + 1) iter s =
        statsScanLoop m ncpus fuel (iter + 1)
          { s with key := k0, diags := s.diags ++ [k0],
                   lookups := s.lookups ++ [k0] } := by
    intro fuel iter s hs
    have hc : cursor s = none := by simp [cursor, hs]
    have hk : get_next_key m.keys (cursor s) = some k0 := by
      rw [hc]
      exact hhead
    exact statsScanLoop_failStep m ncpus fuel iter s k0 hk (hfail iter)
  refine ⟨hstep, ?_⟩
  have hdiv : ∀ (fuel iter : Nat) (s : ScanState), s.prevNull = true →
      statsScanLoop m ncpus fuel iter s = none := by
    intro fuel
    induction fuel with
    | zero => intro iter s _; rfl
    | succ f ih =>
      intro iter s hs
      rw [hstep f iter s hs]
      exact ih (iter + 1) _ hs
  intro fuel
  exact hdiv fuel 0 initScan rfl

/-- Witness for `first_key_fail_restarts_scan`: on a one-key map whose every
lookup fails, the scan has not terminated after any amount of fuel (here 7
iterations). -/
theorem first_key_fail_restarts_scan_witness :
    stats_print c10View 1 7 = none :=
  (first_key_fail_restarts_scan c10View 1 5 rfl (fun _ => rfl)).2 7

/-- Counterexample to C2 as stated: on the map `c2View` (keys `[1, 2]`, the
single simulated read failure hitting key `1` at iteration `0`), the scan
looks keys up in the order `[1, 1, 2]` — after the failed read of the first
key it re-reads key `1` instead of skipping to key `2` (which would give
lookup order `[1, 2]`), and the failed key is even reported in the output. -/
theorem scan_failed_first_key_retried_not_skipped :
    (stats_print c2View 1 10).map ScanState.lookups = some [1, 1, 2] ∧
    (stats_print c2View 1 10).map ScanState.lookups ≠ some [1, 2] ∧
    (stats_print c2View 1 10).map ScanState.diags = some [1] ∧
    (stats_print c2View 1 10).map ScanState.out = some [("i", 10), ("i", 10)] := by
  refine ⟨by rfl, by decide, by rfl, by rfl⟩

/-- C2 amended: a single read failure (hitting key `kf`, the key at position
`ks1.length` in the duplicate-free enumeration `ks1 ++ kf :: ks2`, on the one
iteration that first reads it) is recorded exactly once as a diagnostic, never
aborts the scan, and every subsequent key (`ks2`) is still read and reported.
If `kf` is not the first key the scan skips it (it is absent from the output,
lookup order `ks1 ++ kf :: ks2`); if `kf` IS the first key, `prev_keyp` is
still `NULL`, so the scan re-reads `kf` (lookup order `kf :: kf :: ks2`) and,
the failure being transient, reports it too. -/
theorem scan_single_read_failure (m : MapView) (ncpus fuel : Nat)
    (ks1 ks2 : List Int) (kf : Int)
    (hkeys : m.keys = ks1 ++ kf :: ks2)
    (hnd : m.keys.Nodup)
    (hfk : m.fails ks1.length kf = true)
    (hno : ∀ j k, j ≠ ks1.length → m.fails j k = false)
    (hfuel : m.keys.length + 2 ≤ fuel) :
    ∃ s, stats_print m ncpus fuel = some s ∧
      s.diags = [kf] ∧
      ((ks1 = [] ∧ s.out = (kf :: ks2).map (pairOf m ncpus) ∧
          s.lookups = kf :: kf :: ks2) ∨
       (ks1 ≠ [] ∧ s.out = (ks1 ++ ks2).map (pairOf m ncpus) ∧
          s.lookups = ks1 ++ kf :: ks2)) := by
  have hlen : m.keys.length = ks1.length + ks2.length + 1 := by
    rw [hkeys]
    simp only [List.length_append, List.length_cons]
    omega
  cases ks1 with
  | nil =>
    simp only [List.nil_append] at hkeys
    have hhead : get_next_key m.keys (cursor initScan) = some kf := by
      show m.keys.head? = some kf
      rw [hkeys]
      rfl
    have hA : statsScanLoop m ncpus fuel 0 initScan =
        statsScanLoop m ncpus (fuel - 1) 1
          { key := kf, prevNull := true, out := [], diags := [kf],
            lookups := [kf] } := by
      have := statsScanLoop_failStep' m ncpus fuel 0 initScan kf
        (by omega) hhead hfk
      exact this
    have hhead2 : get_next_key m.keys
        (cursor { key := kf, prevNull := true, out := [], diags := [kf],
                  lookups := ([kf] : List Int) }) = some kf := by
      show m.keys.head? = some kf
      rw [hkeys]
      rfl
    have hB : statsScanLoop m ncpus (fuel - 1) 1
          { key := kf, prevNull := true, out := [], diags := [kf],
            lookups := [kf] } =
        statsScanLoop m ncpus (fuel - 2) 2
          { key := kf, prevNull := false, out := [pairOf m ncpus kf],
            diags := [kf], lookups := [kf, kf] } := by
      have := statsScanLoop_okStep' m ncpus (fuel - 1) 1
        { key := kf, prevNull := true, out := [], diags := [kf], lookups := [kf] }
        kf (by omega) hhead2 (hno 1 kf (by simp))
      simpa using this
    have hC : statsScanLoop m ncpus (fuel - 2) 2
          { key := kf, prevNull := false, out := [pairOf m ncpus kf],
            diags := [kf], lookups := [kf, kf] } =
        some (afterChunk m ncpus ks2
          { key := kf, prevNull := false, out := [pairOf m ncpus kf],
            diags := [kf], lookups := [kf, kf] }) := by
      apply statsScanLoop_finish m ncpus ks2 [kf] 2 (fuel - 2) _ (by simpa using hkeys)
        hnd (fun j k hj => hno j k (by simp only [List.length_nil]; omega))
      · show nextAfter m.keys kf = ks2.head?
        rw [hkeys]
        exact nextAfter_append [] ks2 kf (by rw [hkeys] at hnd; exact hnd)
      · simp only [List.length_nil, List.length_cons] at hlen
        omega
    refine ⟨_, hA.trans (hB.trans hC), ?_, Or.inl ⟨rfl, ?_, ?_⟩⟩
    · rw [afterChunk_diags]
    · rw [afterChunk_out]
      simp
    · rw [afterChunk_lookups]
      rfl
  | cons k1 ks1' =>
    have hA : statsScanLoop m ncpus fuel 0 initScan =
        statsScanLoop m ncpus (fuel - (k1 :: ks1').length) (k1 :: ks1').length
          (afterChunk m ncpus (k1 :: ks1') initScan) := by
      have := statsScanLoop_chunk m ncpus (k1 :: ks1') [] (kf :: ks2) 0 fuel initScan
        (by simpa using hkeys) hnd
        (fun j k _ hj => hno j k (by simp only [List.length_cons, Nat.zero_add] at hj ⊢; omega))
        (by show m.keys.head? = _; rw [hkeys])
        (by simp only [List.length_cons] at hlen ⊢; omega)
      simpa using this
    have hc1 : cursor (afterChunk m ncpus (k1 :: ks1') initScan) =
        some (ks1'.getLastD k1) := by
      rw [afterChunk_cursor]
      show lastCursor ks1' (some k1) = _
      rw [lastCursor_some]
    have hgk : get_next_key m.keys
        (cursor (afterChunk m ncpus (k1 :: ks1') initScan)) = some kf := by
      rw [hc1]
      show nextAfter m.keys (ks1'.getLastD k1) = some kf
      have := nextAfter_getLastD_mid ks1' k1 [] (kf :: ks2) m.keys
        (by simpa using hkeys) hnd
      simpa using this
    have hpn : (afterChunk m ncpus (k1 :: ks1') initScan).prevNull = false :=
      prevNull_false_of_cursor_some _ _ hc1
    have hB : statsScanLoop m ncpus (fuel - (k1 :: ks1').length) (k1 :: ks1').length
          (afterChunk m ncpus (k1 :: ks1') initScan) =
        statsScanLoop m ncpus (fuel - (k1 :: ks1').length - 1) ((k1 :: ks1').length + 1)
          { afterChunk m ncpus (k1 :: ks1') initScan with
            key := kf,
            diags := (afterChunk m ncpus (k1 :: ks1') initScan).diags ++ [kf],
            lookups := (afterChunk m ncpus (k1 :: ks1') initScan).lookups ++ [kf] } :=
      statsScanLoop_failStep' m ncpus (fuel - (k1 :: ks1').length)
        ((k1 :: ks1').length) (afterChunk m ncpus (k1 :: ks1') initScan) kf
        (by simp only [List.length_cons] at hlen ⊢; omega) hgk hfk
    have hcs2 : cursor
        { afterChunk m ncpus (k1 :: ks1') initScan with
          key := kf,
          diags := (afterChunk m ncpus (k1 :: ks1') initScan).diags ++ [kf],
          lookups := (afterChunk m ncpus (k1 :: ks1') initScan).lookups ++ [kf] } =
        some kf := by
      show (if (afterChunk m ncpus (k1 :: ks1') initScan).prevNull then none
            else some kf) = some kf
      rw [hpn]
      simp
    have hC : statsScanLoop m ncpus (fuel - (k1 :: ks1').length - 1)
          ((k1 :: ks1').length + 1)
          { afterChunk m ncpus (k1 :: ks1') initScan with
            key := kf,
            diags := (afterChunk m ncpus (k1 :: ks1') initScan).diags ++ [kf],
            lookups := (afterChunk m ncpus (k1 :: ks1') initScan).lookups ++ [kf] } =
        some (afterChunk m ncpus ks2
          { afterChunk m ncpus (k1 :: ks1') initScan with
            key := kf,
            diags := (afterChunk m ncpus (k1 :: ks1') initScan).diags ++ [kf],
            lookups := (afterChunk m ncpus (k1 :: ks1') initScan).lookups ++ [kf] }) := by
      apply statsScanLoop_finish m ncpus ks2 ((k1 :: ks1') ++ [kf])
        ((k1 :: ks1').length + 1) (fuel - (k1 :: ks1').length - 1) _
        (by simp [hkeys]) hnd
        (fun j k hj => hno j k (by simp only [List.length_cons] at hj ⊢; omega))
      · rw [hcs2]
        show nextAfter m.keys kf = ks2.head?
        rw [hkeys]
        exact nextAfter_append (k1 :: ks1') ks2 kf (by rw [hkeys] at hnd; exact hnd)
      · simp only [List.length_cons] at hlen ⊢
        omega
    refine ⟨_, hA.trans (hB.trans hC), ?_, Or.inr ⟨by simp, ?_, ?_⟩⟩
    · rw [afterChunk_diags]
      show (afterChunk m ncpus (k1 :: ks1') initScan).diags ++ [kf] = [kf]
      rw [afterChunk_diags]
      rfl
    · rw [afterChunk_out]
      show (afterChunk m ncpus (k1 :: ks1') initScan).out ++
          ks2.map (pairOf m ncpus) = ((k1 :: ks1') ++ ks2).map (pairOf m ncpus)
      rw [afterChunk_out]
      simp [initScan]
    · rw [afterChunk_lookups]
      show (afterChunk m ncpus (k1 :: ks1') initScan).lookups ++ [kf] ++ ks2 =
          (k1 :: ks1') ++ kf :: ks2
      rw [afterChunk_lookups]
      simp [initScan]

/-- Witness for `scan_single_read_failure` on `c2wView` (keys `[1, 2, 3]`,
single failure at the middle key `2`): the failed key is skipped, subsequent
key `3` is still read and reported. -/
theorem scan_single_read_failure_witness :
    ∃ s, stats_print c2wView 1 10 = some s ∧
      s.diags = [2] ∧
      (([1] : List Int) = [] ∧
          s.out = (2 :: [3] : List Int).map (pairOf c2wView 1) ∧
          s.lookups = 2 :: 2 :: [3] ∨
        ([1] : List Int) ≠ [] ∧
          s.out = (([1] : List Int) ++ [3]).map (pairOf c2wView 1) ∧
          s.lookups = ([1] : List Int) ++ 2 :: [3]) :=
  scan_single_read_failure c2wView 1 10 [1] [3] 2 rfl (by decide) rfl
    (fun j k hj => by
      have h1 : (j == 1) = false := by simpa using hj
      simp [c2wView, h1])
    (by decide)

/-- C6 evidence: on `c6View` one scan emits exactly the single line
`"eth0 (30000) \n"` — one `name (total)` pair per successfully read key, each
followed by a space, newline-terminated — but the total appears in plain
decimal: `printf` is called with `"%s (%llu) "`, which ignores the numeric
locale, although `stats_poll` sets `LC_NUMERIC` and its comment says to use
the `%'` flag for thousands separators; the grouped rendering the spec
describes would be `"30,000"`. -/
theorem scan_line_plain_decimal :
    (stats_print c6View 2 10).map scanLine = some "eth0 (30000) \n" ∧
    formatGrouped 30000 = "30,000" ∧
    ("eth0 (30000) \n" : String) ≠ "eth0 (30,000) \n" :=
  ⟨rfl, rfl, by decide⟩

/-- C8: the polling loop has no terminal state — whenever the scans of cycles
`0 .. n` complete, the trace after `n` cycles exists and the loop performs an
`(n + 1)`-st cycle: one full scan, the emission of its aggregate line, then
the blocking sleep for the configured interval. The loop guard is constant,
so no cycle count ends the loop on its own. -/
theorem stats_poll_never_exits (p : PollEnv) (fuel n : Nat)
    (h : ∀ k, k ≤ n → (stats_print (p.view k) (p.cpus k) fuel).isSome = true) :
    ∃ evs s, stats_poll p fuel n = some evs ∧
      stats_print (p.view n) (p.cpus n) fuel = some s ∧
      stats_poll p fuel (n + 1) =
        some (evs ++ [PollEvent.emitLine (scanLine s), PollEvent.sleepFor p.interval]) := by
  induction n with
  | zero =>
    obtain ⟨s, hs⟩ := Option.isSome_iff_exists.mp (h 0 (Nat.le_refl 0))
    have hc : pollCycle p fuel 0 =
        some [PollEvent.emitLine (scanLine s), PollEvent.sleepFor p.interval] := by
      unfold pollCycle
      rw [hs]
    refine ⟨[], s, rfl, hs, ?_⟩
    simp only [stats_poll, hc]
  | succ k ih =>
    obtain ⟨evs, s, h1, h2, h3⟩ := ih (fun j hj => h j (Nat.le_trans hj (Nat.le_succ k)))
    obtain ⟨s2, hs2⟩ := Option.isSome_iff_exists.mp (h (k + 1) (Nat.le_refl _))
    have hc2 : pollCycle p fuel (k + 1) =
        some [PollEvent.emitLine (scanLine s2), PollEvent.sleepFor p.interval] := by
      unfold pollCycle
      rw [hs2]
    refine ⟨evs ++ [PollEvent.emitLine (scanLine s), PollEvent.sleepFor p.interval],
      s2, h3, hs2, ?_⟩
    have hstep : stats_poll p fuel (k + 1 + 1) =
        match stats_poll p fuel (k + 1), pollCycle p fuel (k + 1) with
        | some evs, some c => some (evs ++ c)
        | _, _ => none := rfl
    rw [hstep, h3, hc2]

/-- Witness for `stats_poll_never_exits` on `c8Env` at cycle `1`: the trace
exists and the second cycle emits its line and sleeps. -/
theorem stats_poll_never_exits_witness :
    ∃ evs s, stats_poll c8Env 5 1 = some evs ∧
      stats_print (c8Env.view 1) (c8Env.cpus 1) 5 = some s ∧
      stats_poll c8Env 5 (1 + 1) =
        some (evs ++ [PollEvent.emitLine (scanLine s), PollEvent.sleepFor c8Env.interval]) :=
  stats_poll_never_exits c8Env 5 1 (fun _ _ => rfl)

/-- C9: the CPU count is queried fresh inside `stats_print` on every polling
cycle (`pollCycle` runs `stats_print (p.view n) (p.cpus n)`), and within cycle
`n` every reported total is the wrapping sum over exactly `p.cpus n` per-CPU
slots — the count queried at the start of that same cycle, for every key the
scan read. -/
theorem poll_uses_fresh_cpu_count (p : PollEnv) (fuel n : Nat) (s : ScanState)
    (h : stats_print (p.view n) (p.cpus n) fuel = some s) :
    ∀ q ∈ s.out, ∃ k, k ∈ (p.view n).keys ∧
      q = ((p.view n).ifname k, u64sum (p.cpus n) ((p.view n).vals k)) := by
  intro q hq
  rcases statsScanLoop_out_mem (p.view n) (p.cpus n) fuel 0 initScan s h q hq
    with h1 | h2
  · simp [initScan] at h1
  · obtain ⟨k, hk, hp⟩ := h2
    exact ⟨k, hk, hp⟩

/-- Witness for `poll_uses_fresh_cpu_count` on `c9Env`, whose CPU count
changes every cycle: in cycle `2` the count is `3` and the reported total is
`15 = 5 + 5 + 5`, summed over the three freshly counted CPUs. -/
theorem poll_uses_fresh_cpu_count_witness :
    ∃ k, k ∈ (c9Env.view 2).keys ∧
      (("e", 15) : String × Nat) =
        ((c9Env.view 2).ifname k, u64sum (c9Env.cpus 2) ((c9Env.view 2).vals k)) :=
  poll_uses_fresh_cpu_count c9Env 5 2
    { key := 1, prevNull := false, out := [("e", 15)], diags := [], lookups := [1] }
    rfl ("e", 15) (by simp)

end TraceStats
